import Mathlib

/-!
Verification development for the AMI replication workflow engine
(aws-ami-factory).  The definitions below are shallow embeddings of the
Lambda handlers in `src/lib/common.ts` (second revision, the one deployed
as `copy-ami/index.js`) and of the Step Functions state machine and retry
policy declared in `src/lib/build-pipeline.ts`.  Strings coming from the
manifest parser are modelled as lists of characters so that the JS
`String.split` calls can be reasoned about directly.
-/

namespace AmiFactory

/-- A JavaScript `Error`: its `name` and `message`, as used by the kickoff
handler's catch block and by the Step Functions error matcher. -/
structure ErrInfo where
  name : String
  message : String
deriving DecidableEq, Repr

/-! ## Manifest reader (`getAmiIDsByRegion` in src/lib/common.ts:386-394)

JS strings are embedded as `List Char`; `splitOnChar` is the semantics of
`String.prototype.split` with a single-character separator. -/

/-- Character-list model of a JS string. -/
abbrev Str := List Char

/-- Semantics of JS `s.split(c)` for a one-character separator `c`:
always returns a non-empty list of (possibly empty) fragments. -/
def splitOnChar (c : Char) : Str → List Str
  | [] => [[]]
  | x :: xs =>
    if x = c then [] :: splitOnChar c xs
    else
      match splitOnChar c xs with
      | [] => [[x]]
      | y :: ys => (x :: y) :: ys

/-- JS object property assignment `images[region] = amiId`: overwrite the
existing binding if the key is present, otherwise append a new one. -/
def jsSet (m : List (Str × Option Str)) (k : Str) (v : Option Str) :
    List (Str × Option Str) :=
  if m.any (fun p => p.1 == k) then
    m.map (fun p => if p.1 == k then (k, v) else p)
  else m ++ [(k, v)]

/-- JS object property read `images[region]`: the bound value, or
`none` (JS `undefined`) when the key is absent.  The stored value is
itself optional because `pair.split(':')[1]` is `undefined` for a
colon-free pair, so the two layers are flattened. -/
def jsGet (m : List (Str × Option Str)) (k : Str) : Option Str :=
  ((m.find? (fun p => p.1 == k)).map Prod.snd).join

/-- src/lib/common.ts:386-394 (`getAmiIDsByRegion`): split the first
build's `artifact_id` on commas, split each fragment on colons, and build
the region-to-image-id object. -/
def getAmiIDsByRegion (artifactId : Str) : List (Str × Option Str) :=
  (splitOnChar ',' artifactId).foldl
    (fun images pair =>
      jsSet images ((splitOnChar ':' pair).headD [])
        ((splitOnChar ':' pair).get? 1))
    []

/-- src/lib/common.ts:478-479: `const amiId = amiMap[region]` — resolve
the operating region against the parsed manifest; `none` is JS
`undefined` (region unlisted, the condition the spec names
`RegionNotFoundError`). -/
def resolveAmiId (artifactId : Str) (region : Str) : Option Str :=
  jsGet (getAmiIDsByRegion artifactId) region

/-- Concatenation of `region:id` pairs with comma separators — the
delimited-list manifest format of spec section 6. -/
def joinPairs : List (Str × Str) → Str
  | [] => []
  | [p] => p.1 ++ ':' :: p.2
  | p :: q :: rest => p.1 ++ ':' :: p.2 ++ ',' :: joinPairs (q :: rest)

/-! ## Retry policy (`RetriableTask` in src/lib/build-pipeline.ts:101-111)

Every task of the copy state machine is wrapped with
`addRetry({errors: [Lambda.ServiceException, Lambda.AWSLambdaException,
Lambda.SdkClientException], backoffRate: 2, interval: 2s, maxAttempts: 6})`.
The interpreter semantics are those of Amazon States Language: the task is
invoked once, and on an error whose name matches the list it is retried up
to `maxAttempts` further times, the i-th retry being delayed by
`interval * backoffRate ^ (i-1)` seconds. -/

/-- The error names retried by `RetriableTask`
(src/lib/build-pipeline.ts:105). -/
def retriableErrors : List String :=
  ["Lambda.ServiceException", "Lambda.AWSLambdaException", "Lambda.SdkClientException"]

/-- The retry declaration attached by the `RetriableTask` constructor
(src/lib/build-pipeline.ts:104-109). -/
structure RetryPolicy where
  errors : List String
  backoffRate : Nat
  intervalSeconds : Nat
  maxAttempts : Nat
deriving DecidableEq, Repr

/-- The concrete policy of src/lib/build-pipeline.ts:104-109. -/
def retriableTaskPolicy : RetryPolicy :=
  { errors := retriableErrors
    backoffRate := 2
    intervalSeconds := 2
    maxAttempts := 6 }

/-- Seconds of backoff before the i-th retry (1-based):
`interval * backoffRate ^ (i - 1)`. -/
def delayBeforeRetry (p : RetryPolicy) (i : Nat) : Nat :=
  p.intervalSeconds * p.backoffRate ^ (i - 1)

/-- Outcome of running a task under a retry policy: success on a given
(1-based) attempt, or a terminal error after a given number of attempts;
both record the backoff delays slept between attempts, in order. -/
inductive RetryOutcome where
  | succeededOn (attempt : Nat) (delays : List Nat)
  | failedWith (e : ErrInfo) (attemptsMade : Nat) (delays : List Nat)
deriving DecidableEq, Repr

/-- True exactly when the retry run ended in a terminal (fatal) error. -/
def RetryOutcome.isFatal : RetryOutcome → Bool
  | .failedWith _ _ _ => true
  | _ => false

/-- Amazon States Language retry loop: `results i` is the outcome of the
i-th invocation of the task (`none` = success).  `retriesLeft` starts at
`p.maxAttempts`; an error whose name is not in `p.errors` is never
retried. -/
def runRetriesFrom (p : RetryPolicy) (results : Nat → Option ErrInfo) :
    Nat → Nat → List Nat → RetryOutcome
  | attempt, retriesLeft, delays =>
    match results attempt with
    | none => .succeededOn attempt delays
    | some e =>
      if p.errors.contains e.name then
        match retriesLeft with
        | 0 => .failedWith e attempt delays
        | r + 1 =>
          runRetriesFrom p results (attempt + 1) r
            (delays ++ [delayBeforeRetry p attempt])
      else .failedWith e attempt delays

/-- Run a task under a retry policy, starting with attempt 1 and the full
retry budget. -/
def runWithRetries (p : RetryPolicy) (results : Nat → Option ErrInfo) :
    RetryOutcome :=
  runRetriesFrom p results 1 p.maxAttempts []

/-! ## Copy state machine (src/lib/build-pipeline.ts:378-418)

Graph: `copySnapshotTask → checkSnapshotTask → progressChoice`, where the
choice routes `completed` to `registerImageTask → successTask`, `error` to
`failTask`, and anything else to `Wait 30s → checkSnapshotTask`.  Every
task has `addCatch(failTask)`, and `failTask` invokes the failure notifier
before the `Fail` state.  An execution is driven by an oracle giving the
post-retry outcome of each task invocation and the snapshot status
returned by each progress check. -/

/-- Observable events of one state-machine execution, in order. -/
inductive Event where
  | invokeCopy
  | invokeCheck
  | waitSeconds (n : Nat)
  | invokeRegister
  | notifySuccess
  | notifyFailure
deriving DecidableEq, Repr

/-- Terminal classification of an execution: reached the success
notifier, reached the failure notifier, or still inside the polling loop
when the observed trace ran out. -/
inductive Outcome where
  | successNotified
  | failureNotified
  | stillPolling
deriving DecidableEq, Repr

/-- Result of one invocation of the check-snapshot-progress task: the
Lambda erred terminally (after its own retries), or it returned the
snapshot's reported `State` string. -/
inductive CheckResult where
  | lambdaError (e : ErrInfo)
  | status (s : String)
deriving DecidableEq, Repr

/-- Post-retry outcomes of the task invocations of one execution:
`copyResult`/`registerResult` are `none` on success, and `checkResults`
lists the successive results of the progress checks that were observed. -/
structure ExecTrace where
  copyResult : Option ErrInfo
  checkResults : List CheckResult
  registerResult : Option ErrInfo
deriving DecidableEq, Repr

/-- Targets of the `Is snapshot ready?` choice state. -/
inductive ChoiceTarget where
  | toRegister
  | toFail
  | toWait
deriving DecidableEq, Repr

/-- src/lib/build-pipeline.ts:400-411 (`progressChoice`): route on
`$.snapshotState` — `completed` to the register task, `error` to the fail
task, otherwise to the 30-second wait followed by another check. -/
def progressChoice (snapshotState : String) : ChoiceTarget :=
  if snapshotState = "completed" then .toRegister
  else if snapshotState = "error" then .toFail
  else .toWait

/-- The register task: invoke the register Lambda; on success continue to
the success notifier, on a terminal error divert to the fail task
(src/lib/build-pipeline.ts:392-394). -/
def runRegister (registerResult : Option ErrInfo) : List Event × Outcome :=
  match registerResult with
  | none => ([Event.invokeRegister, Event.notifySuccess], .successNotified)
  | some _ => ([Event.invokeRegister, Event.notifyFailure], .failureNotified)

/-- The polling loop: invoke the check task, then apply `progressChoice`
to the returned status; a terminal check error diverts to the fail task.
An exhausted oracle leaves the execution still polling. -/
def runChecks (registerResult : Option ErrInfo) :
    List CheckResult → List Event × Outcome
  | [] => ([], .stillPolling)
  | .lambdaError _ :: _ => ([Event.invokeCheck, Event.notifyFailure], .failureNotified)
  | .status s :: rest =>
    match progressChoice s with
    | .toRegister =>
      let (evs, o) := runRegister registerResult
      (Event.invokeCheck :: evs, o)
    | .toFail => ([Event.invokeCheck, Event.notifyFailure], .failureNotified)
    | .toWait =>
      let (evs, o) := runChecks registerResult rest
      (Event.invokeCheck :: Event.waitSeconds 30 :: evs, o)

/-- One execution of the copy state machine
(src/lib/build-pipeline.ts:414-418): the copy task, then the first check,
then the choice-driven loop.  A terminal copy error diverts to the fail
task, which notifies failure and halts. -/
def runStateMachine (t : ExecTrace) : List Event × Outcome :=
  match t.copyResult with
  | some _ => ([Event.invokeCopy, Event.notifyFailure], .failureNotified)
  | none =>
    let (evs, o) := runChecks t.registerResult t.checkResults
    (Event.invokeCopy :: evs, o)

/-! ## Key bootstrapper (src/lib/common.ts:396-451 and 577-610)

The KMS bootstrap block of `copySnapshot`: `describeKey(alias)`; if the
alias resolves, `putKeyPolicy` refreshes the key's policy in place; on
`NotFoundException`, `createKey` with the composed policy document and
`createAlias` bind a fresh key to the alias. -/

/-- The policy document composed by `kmsKeyPolicy(accountId, roleArn)`
(src/lib/common.ts:396-442): it is a deterministic function of the owner
account (granted `kms:*` via its root principal) and the destination role
(granted use of the key plus AWS-resource-restricted grant actions), so it
is embedded as the pair of principal ARNs. -/
structure KmsKeyPolicy where
  rootAccountArn : String
  importerRoleArn : String
deriving DecidableEq, Repr

/-- src/lib/common.ts:396-442: compose the key policy for an owner
account id and a destination role ARN. -/
def kmsKeyPolicy (accountId roleArn : String) : KmsKeyPolicy :=
  { rootAccountArn := "arn:aws:iam::" ++ accountId ++ ":root"
    importerRoleArn := roleArn }

/-- State of the destination account's KMS: keys (id, policy), aliases
(name, target key id), and a counter from which fresh key ids are
minted. -/
structure KmsState where
  keys : List (String × KmsKeyPolicy)
  aliases : List (String × String)
  nextKeyNum : Nat
deriving DecidableEq, Repr

/-- Fresh key id minted by `createKey`. -/
def freshKeyId (n : Nat) : String := "key-" ++ toString n

/-- The KMS bootstrap block of `copySnapshot`
(src/lib/common.ts:577-610): if `describeKey(kmsKeyAlias)` finds the
alias, refresh the key policy via `putKeyPolicy`; on `NotFoundException`,
`createKmsKey` (src/lib/common.ts:444-451) followed by `createAlias`.
Returns the updated KMS state and the key id the alias resolves to. -/
def ensureKmsKey (s : KmsState) (kmsKeyAlias accountId roleArn : String) :
    KmsState × String :=
  match s.aliases.find? (fun a => a.1 == kmsKeyAlias) with
  | some al =>
    ({ s with
        keys := s.keys.map fun p =>
          if p.1 == al.2 then (p.1, kmsKeyPolicy accountId roleArn) else p },
     al.2)
  | none =>
    let keyId := freshKeyId s.nextKeyNum
    ({ keys := s.keys ++ [(keyId, kmsKeyPolicy accountId roleArn)]
       aliases := s.aliases ++ [(kmsKeyAlias, keyId)]
       nextKeyNum := s.nextKeyNum + 1 },
     keyId)

/-! ## Image attributes, registration and tagging
(src/lib/common.ts:664-717) -/

/-- EBS attributes of a block-device mapping, restricted to the fields
`registerImage` reads (src/lib/common.ts:687-692). -/
structure Ebs where
  snapshotId : String
  deleteOnTermination : Bool
  volumeType : String
  volumeSize : Nat
deriving DecidableEq, Repr, Inhabited

/-- One entry of an image's `BlockDeviceMappings`. -/
structure BlockDeviceMapping where
  deviceName : String
  ebs : Ebs
deriving DecidableEq, Repr, Inhabited

/-- The source image attributes captured by `copySnapshot`
(`describeImages(...).Images[0]`, src/lib/common.ts:557-560) and carried
on the job as `sourceImageAttrs`. -/
structure ImageAttrs where
  name : String
  architecture : String
  billingProducts : List String
  blockDeviceMappings : List BlockDeviceMapping
  virtualizationType : String
  description : String
  enaSupport : Bool
  sriovNetSupport : String
  kernelId : String
  ramdiskId : String
  rootDeviceName : String
  tags : List (String × String)
deriving DecidableEq, Repr, Inhabited

/-- The replication job object (the state-machine `event`), with the
fields the register step reads and writes. -/
structure Job where
  jobId : String
  sourceImageId : String
  destinationAccountId : String
  destinationRegion : String
  destinationRoleName : String
  kmsKeyAlias : String
  amiName : String
  sourceImageAttrs : ImageAttrs
  destinationSnapshotId : String
  destinationImageId : Option String
deriving DecidableEq, Repr

/-- The parameter object passed to `ec2.registerImage`
(src/lib/common.ts:681-701). -/
structure RegisterCall where
  name : String
  architecture : String
  billingProducts : List String
  blockDeviceMappings : List BlockDeviceMapping
  virtualizationType : String
  description : String
  enaSupport : Bool
  sriovNetSupport : String
  kernelId : String
  ramdiskId : String
  rootDeviceName : String
deriving DecidableEq, Repr

/-- src/lib/common.ts:681-701: the `registerImage` parameters built from
the carried source image attributes; only `BlockDeviceMappings[0]` is
read, and within it the snapshot id is replaced by the completed
destination snapshot id.  (On an image with no block-device mapping the
JS dereference of `BlockDeviceMappings[0]` would throw; the default
mapping stands in for that unreachable case, since every copied job
carries at least the primary device.) -/
def registerCallOf (src : ImageAttrs) (destinationSnapshotId : String) :
    RegisterCall :=
  let bdm0 := src.blockDeviceMappings.headD default
  { name := src.name
    architecture := src.architecture
    billingProducts := src.billingProducts
    blockDeviceMappings :=
      [{ deviceName := bdm0.deviceName
         ebs :=
           { snapshotId := destinationSnapshotId
             deleteOnTermination := bdm0.ebs.deleteOnTermination
             volumeType := bdm0.ebs.volumeType
             volumeSize := bdm0.ebs.volumeSize } }]
    virtualizationType := src.virtualizationType
    description := src.description
    enaSupport := src.enaSupport
    sriovNetSupport := src.sriovNetSupport
    kernelId := src.kernelId
    ramdiskId := src.ramdiskId
    rootDeviceName := src.rootDeviceName }

/-- The parameter object passed to `ec2.createTags`
(src/lib/common.ts:708-714). -/
structure CreateTagsCall where
  resources : List String
  tags : List (String × String)
deriving DecidableEq, Repr

/-- src/lib/common.ts:664-717 (`registerImage` handler): register the new
image from the carried attributes and the destination snapshot, attach
the returned image id to the job, and copy every source tag onto both the
new image and the destination snapshot.  `newImageId` is the id returned
by the `RegisterImage` call. -/
def registerImage (newImageId : String) (ev : Job) :
    Job × RegisterCall × CreateTagsCall :=
  let params := registerCallOf ev.sourceImageAttrs ev.destinationSnapshotId
  ({ ev with destinationImageId := some newImageId },
   params,
   { resources := [newImageId, ev.destinationSnapshotId]
     tags := ev.sourceImageAttrs.tags })

/-- Tag lookup on a resource's tag list. -/
def tagLookup (tags : List (String × String)) (k : String) : Option String :=
  (tags.find? fun p => p.1 == k).map Prod.snd

/-- Semantics of EC2 `CreateTags`: on each listed resource, each given
key is bound to the given value (overwriting any previous binding); other
resources and keys are untouched.  `tagsOf` is the pre-call tag state. -/
def applyCreateTags (tagsOf : String → List (String × String))
    (c : CreateTagsCall) : String → String → Option String :=
  fun res k =>
    if c.resources.contains res then
      match tagLookup c.tags k with
      | some v => some v
      | none => tagLookup (tagsOf res) k
    else tagLookup (tagsOf res) k

/-! ## Kickoff handler (src/lib/common.ts:453-520)

The handler parses the action's user parameters, fetches the build
artifact, extracts the manifest's `artifact_id`, resolves the operating
region's AMI id, shares every backing snapshot of that image with the
destination account, and starts one state-machine execution; any error
raised inside the `try` block is caught and reported to CodePipeline as a
job failure for the triggering job id. -/

/-- The `UserParameters` of the copy action
(src/lib/build-pipeline.ts:458-464), parsed by the kickoff handler. -/
structure KickoffParams where
  destinationAccountId : String
  destinationRegion : String
  destinationRoleName : String
  kmsKeyAlias : String
  amiName : String
deriving DecidableEq, Repr

/-- The input document passed to `startExecution`
(src/lib/common.ts:499-506): the pipeline job id, the resolved source
image id (absent when the operating region is unlisted, as
`JSON.stringify` drops an `undefined` field), and the spread user
parameters. -/
structure SfnInput where
  jobId : String
  sourceImageId : Option Str
  params : KickoffParams
deriving DecidableEq, Repr

/-- Environment of one kickoff invocation: the outcomes of each remote
interaction the handler performs, in program order. -/
structure KickoffWorld where
  jobId : String
  region : Str
  userParameters : Except ErrInfo KickoffParams
  artifactFetch : Except ErrInfo Str
  describeImage : Except ErrInfo ImageAttrs
  shareResult : String → Option ErrInfo
  startResult : Except ErrInfo String

/-- Externally visible calls made by the kickoff handler. -/
inductive KAction where
  | shareSnapshot (snapshotId : String) (accountId : String)
  | startExecution (input : SfnInput)
  | putJobFailureResult (jobId : String) (message : String)
deriving DecidableEq, Repr

/-- The failure message composed by the kickoff catch block
(src/lib/common.ts:510). -/
def kickoffErrMsg (e : ErrInfo) : String :=
  "ERROR: " ++ e.name ++ ": " ++ e.message

/-- The sharing loop of src/lib/common.ts:487-496: one awaited
`modifySnapshotAttribute` per block-device mapping, stopping at the first
failure.  Returns the calls made and the error that interrupted the loop,
if any. -/
def shareLoop (w : KickoffWorld) (accountId : String) :
    List BlockDeviceMapping → List KAction × Option ErrInfo
  | [] => ([], none)
  | b :: rest =>
    match w.shareResult b.ebs.snapshotId with
    | some e => ([KAction.shareSnapshot b.ebs.snapshotId accountId], some e)
    | none =>
      let (as, r) := shareLoop w accountId rest
      (KAction.shareSnapshot b.ebs.snapshotId accountId :: as, r)

/-- The body of the kickoff `try` block (src/lib/common.ts:458-508):
parse parameters, fetch the artifact and extract the manifest's
`artifact_id`, resolve the operating region's AMI id, describe the image,
share every backing snapshot, then start the state-machine execution.
Returns the calls made and the first error raised, if any. -/
def kickoffBody (w : KickoffWorld) : List KAction × Option ErrInfo :=
  match w.userParameters with
  | .error e => ([], some e)
  | .ok params =>
    match w.artifactFetch with
    | .error e => ([], some e)
    | .ok artifactId =>
      let amiId := resolveAmiId artifactId w.region
      match w.describeImage with
      | .error e => ([], some e)
      | .ok image =>
        match shareLoop w params.destinationAccountId image.blockDeviceMappings with
        | (as, some e) => (as, some e)
        | (as, none) =>
          match w.startResult with
          | .error e => (as, some e)
          | .ok _ =>
            (as ++ [KAction.startExecution ⟨w.jobId, amiId, params⟩], none)

/-- src/lib/common.ts:453-520 (`kickoff` handler): run the body; if it
raised, report the failure to CodePipeline for the triggering job id with
the error's name and message, and return normally either way. -/
def kickoff (w : KickoffWorld) : List KAction :=
  match kickoffBody w with
  | (as, none) => as
  | (as, some e) => as ++ [KAction.putJobFailureResult w.jobId (kickoffErrMsg e)]

/-! ## Helper lemmas -/

/-- The polling loop on an all-pending status sequence of length n makes
exactly n checks and remains non-terminal. -/
theorem runChecks_replicate_pending (reg : Option ErrInfo) (n : Nat) :
    (runChecks reg (List.replicate n (CheckResult.status "pending"))).2
      = Outcome.stillPolling
    ∧ (runChecks reg (List.replicate n (CheckResult.status "pending"))).1.count
        Event.invokeCheck = n := by
  induction n with
  | zero => simp [runChecks]
  | succ m ih =>
    simp only [List.replicate_succ, runChecks, progressChoice]
    exact ⟨ih.1, by simp [List.count_cons, ih.2]⟩

/-- Notification accounting for the polling loop: a terminated loop
notifies exactly once, success exactly on reaching registration with a
successful register invocation. -/
theorem runChecks_notifications (reg : Option ErrInfo) (l : List CheckResult)
    (h : (runChecks reg l).2 ≠ Outcome.stillPolling) :
    ((runChecks reg l).1.count Event.notifySuccess
        + (runChecks reg l).1.count Event.notifyFailure = 1)
    ∧ ((runChecks reg l).2 = Outcome.successNotified
        ↔ Event.notifySuccess ∈ (runChecks reg l).1)
    ∧ ((runChecks reg l).2 = Outcome.failureNotified
        ↔ Event.notifyFailure ∈ (runChecks reg l).1)
    ∧ (Event.notifySuccess ∈ (runChecks reg l).1
        ↔ (Event.invokeRegister ∈ (runChecks reg l).1 ∧ reg = none)) := by
  induction l with
  | nil => simp [runChecks] at h
  | cons c rest ih =>
    match c with
    | .lambdaError e => simp [runChecks]
    | .status s =>
      by_cases hs : s = "completed"
      · cases hreg : reg with
        | none => simp [runChecks, progressChoice, hs, runRegister, hreg]
        | some e2 => simp [runChecks, progressChoice, hs, runRegister, hreg]
      · by_cases hs2 : s = "error"
        · simp [runChecks, progressChoice, hs, hs2]
        · have hrec : (runChecks reg (CheckResult.status s :: rest)).1
              = Event.invokeCheck :: Event.waitSeconds 30 :: (runChecks reg rest).1
            ∧ (runChecks reg (CheckResult.status s :: rest)).2
              = (runChecks reg rest).2 := by
            simp [runChecks, progressChoice, hs, hs2]
          rw [hrec.2] at h
          rw [hrec.1, hrec.2]
          have ihh := ih h
          refine ⟨by simp [List.count_cons, ihh.1], by simp [ihh.2.1],
            by simp [ihh.2.2.1], by simpa using ihh.2.2.2⟩

end AmiFactory

namespace AmiFactory

/-- C1: for every terminating execution of the copy state machine (one
whose observed trace reaches a terminal state rather than remaining in
the polling loop), exactly one completion notification is reported —
never zero, never both — and it is the success notification exactly when
the execution reaches the register step and registration succeeds, the
failure notification exactly when some step terminally fails. -/
theorem C1_exactly_one_notification (t : ExecTrace)
    (h : (runStateMachine t).2 ≠ Outcome.stillPolling) :
    ((runStateMachine t).1.count Event.notifySuccess
        + (runStateMachine t).1.count Event.notifyFailure = 1)
    ∧ ((runStateMachine t).2 = Outcome.successNotified
        ↔ Event.notifySuccess ∈ (runStateMachine t).1)
    ∧ ((runStateMachine t).2 = Outcome.failureNotified
        ↔ Event.notifyFailure ∈ (runStateMachine t).1)
    ∧ (Event.notifySuccess ∈ (runStateMachine t).1
        ↔ (Event.invokeRegister ∈ (runStateMachine t).1 ∧ t.registerResult = none)) := by
  obtain ⟨c, checks, reg⟩ := t
  cases c with
  | some e => simp [runStateMachine]
  | none =>
    have hrw : runStateMachine ⟨none, checks, reg⟩
        = (Event.invokeCopy :: (runChecks reg checks).1, (runChecks reg checks).2) := by
      simp [runStateMachine]
    rw [hrw] at h ⊢
    have h2 : (runChecks reg checks).2 ≠ Outcome.stillPolling := by simpa using h
    have ihh := runChecks_notifications reg checks h2
    exact ⟨by simp [List.count_cons, ihh.1], by simp [ihh.2.1],
      by simp [ihh.2.2.1], by simpa using ihh.2.2.2⟩

/-- C1 witness: a concrete execution that completes after one check and
registers successfully notifies success exactly once. -/
theorem C1_exactly_one_notification_witness :
    ((runStateMachine ⟨none, [CheckResult.status "completed"], none⟩).1.count
          Event.notifySuccess
        + (runStateMachine ⟨none, [CheckResult.status "completed"], none⟩).1.count
          Event.notifyFailure = 1)
    ∧ ((runStateMachine ⟨none, [CheckResult.status "completed"], none⟩).2
          = Outcome.successNotified
        ↔ Event.notifySuccess
          ∈ (runStateMachine ⟨none, [CheckResult.status "completed"], none⟩).1)
    ∧ ((runStateMachine ⟨none, [CheckResult.status "completed"], none⟩).2
          = Outcome.failureNotified
        ↔ Event.notifyFailure
          ∈ (runStateMachine ⟨none, [CheckResult.status "completed"], none⟩).1)
    ∧ (Event.notifySuccess
          ∈ (runStateMachine ⟨none, [CheckResult.status "completed"], none⟩).1
        ↔ (Event.invokeRegister
          ∈ (runStateMachine ⟨none, [CheckResult.status "completed"], none⟩).1
          ∧ (ExecTrace.mk none [CheckResult.status "completed"] none).registerResult = none)) :=
  C1_exactly_one_notification ⟨none, [CheckResult.status "completed"], none⟩ (by decide)

/-- C5: the key bootstrapper is idempotent — running it twice for the
same alias resolves the same key both times, the second run takes the
alias-found branch (no new key, no new alias, only a policy refresh in
place), and the first run creates exactly one key when the alias is
absent and none when it is present. -/
theorem C5_bootstrap_idempotent (s : KmsState) (aliasName accountId roleArn : String) :
    (ensureKmsKey (ensureKmsKey s aliasName accountId roleArn).1 aliasName accountId roleArn).2
        = (ensureKmsKey s aliasName accountId roleArn).2
    ∧ (ensureKmsKey (ensureKmsKey s aliasName accountId roleArn).1
          aliasName accountId roleArn).1.keys.length
        = (ensureKmsKey s aliasName accountId roleArn).1.keys.length
    ∧ (ensureKmsKey (ensureKmsKey s aliasName accountId roleArn).1
          aliasName accountId roleArn).1.aliases
        = (ensureKmsKey s aliasName accountId roleArn).1.aliases
    ∧ (s.aliases.find? (fun a => a.1 == aliasName) = none →
        (ensureKmsKey s aliasName accountId roleArn).1.keys.length = s.keys.length + 1)
    ∧ (∀ al, s.aliases.find? (fun a => a.1 == aliasName) = some al →
        (ensureKmsKey s aliasName accountId roleArn).1.keys.length = s.keys.length
        ∧ (ensureKmsKey s aliasName accountId roleArn).1.aliases = s.aliases
        ∧ (ensureKmsKey s aliasName accountId roleArn).2 = al.2) := by
  cases hfind : s.aliases.find? (fun a => a.1 == aliasName) with
  | some al =>
    simp [ensureKmsKey, hfind]
  | none =>
    have hfind2 : (s.aliases ++ [(aliasName, freshKeyId s.nextKeyNum)]).find?
        (fun a => a.1 == aliasName) = some (aliasName, freshKeyId s.nextKeyNum) := by
      rw [List.find?_append, hfind]
      simp
    simp only [ensureKmsKey, hfind]
    simp only [hfind2]
    simp

/-- C5 witness: bootstrapping twice from an empty KMS state resolves the
same fresh key both times and creates exactly one key. -/
theorem C5_bootstrap_idempotent_witness :
    (ensureKmsKey (ensureKmsKey ⟨[], [], 0⟩ "alias/ami/web" "111122223333"
          "arn:aws:iam::111122223333:role/AMICopyRole").1 "alias/ami/web" "111122223333"
          "arn:aws:iam::111122223333:role/AMICopyRole").2
        = (ensureKmsKey ⟨[], [], 0⟩ "alias/ami/web" "111122223333"
          "arn:aws:iam::111122223333:role/AMICopyRole").2
    ∧ (ensureKmsKey ⟨[], [], 0⟩ "alias/ami/web" "111122223333"
          "arn:aws:iam::111122223333:role/AMICopyRole").1.keys.length = 1 :=
  ⟨(C5_bootstrap_idempotent ⟨[], [], 0⟩ "alias/ami/web" "111122223333"
      "arn:aws:iam::111122223333:role/AMICopyRole").1,
   by
    simpa using (C5_bootstrap_idempotent ⟨[], [], 0⟩ "alias/ami/web" "111122223333"
      "arn:aws:iam::111122223333:role/AMICopyRole").2.2.2.1 (by decide)⟩

/-- C2: the progress-poller choice advances to registration exactly on
the `completed` status, to the failure path exactly on the `error`
status, and otherwise waits 30 seconds and re-invokes the check; the
status sequence [pending, pending, completed] yields exactly 3 checks,
each separated by the 30-second wait, before registration; and no
iteration bound terminates the loop — an all-pending sequence of any
length n performs n checks without reaching a terminal outcome. -/
theorem C2_poller_transitions :
    (∀ s : String, progressChoice s = ChoiceTarget.toRegister ↔ s = "completed")
    ∧ (∀ s : String, progressChoice s = ChoiceTarget.toFail ↔ s = "error")
    ∧ (∀ (s : String) (reg : Option ErrInfo) (rest : List CheckResult),
        s ≠ "completed" → s ≠ "error" →
        (runChecks reg (CheckResult.status s :: rest)).1
            = Event.invokeCheck :: Event.waitSeconds 30 :: (runChecks reg rest).1
        ∧ (runChecks reg (CheckResult.status s :: rest)).2 = (runChecks reg rest).2)
    ∧ (runStateMachine ⟨none,
        [CheckResult.status "pending", CheckResult.status "pending",
         CheckResult.status "completed"], none⟩).1
        = [Event.invokeCopy, Event.invokeCheck, Event.waitSeconds 30, Event.invokeCheck,
           Event.waitSeconds 30, Event.invokeCheck, Event.invokeRegister, Event.notifySuccess]
    ∧ (∀ n : Nat,
        (runStateMachine ⟨none, List.replicate n (CheckResult.status "pending"), none⟩).2
            = Outcome.stillPolling
        ∧ (runStateMachine ⟨none, List.replicate n (CheckResult.status "pending"), none⟩).1.count
            Event.invokeCheck = n) := by
  refine ⟨?_, ?_, ?_, by decide, ?_⟩
  · intro s
    by_cases h : s = "completed" <;> by_cases h2 : s = "error" <;>
      simp [progressChoice, h, h2]
  · intro s
    by_cases h : s = "completed" <;> by_cases h2 : s = "error" <;>
      simp [progressChoice, h, h2]
  · intro s reg rest h h2
    simp [runChecks, progressChoice, h, h2]
  · intro n
    have h := runChecks_replicate_pending none n
    constructor
    · simp [runStateMachine, h.1]
    · simp [runStateMachine, List.count_cons, h.2]

/-- C2 witness: the non-terminal branch at a concrete pending status. -/
theorem C2_poller_transitions_witness :
    (runChecks none (CheckResult.status "pending" :: [CheckResult.status "completed"])).1
        = Event.invokeCheck :: Event.waitSeconds 30
          :: (runChecks none [CheckResult.status "completed"]).1
    ∧ (runChecks none (CheckResult.status "pending" :: [CheckResult.status "completed"])).2
        = (runChecks none [CheckResult.status "completed"]).2 :=
  C2_poller_transitions.2.2.1 "pending" none [CheckResult.status "completed"]
    (by decide) (by decide)

/-- C3 counterexample: the claim says a 6th consecutive transient failure
exhausts the retry budget and becomes fatal, but `maxAttempts: 6` is the
Step Functions retry count in addition to the initial attempt, so after 6
consecutive `Lambda.ServiceException` failures a 7th attempt still runs
and succeeds — the outcome is not fatal. -/
theorem C3_counterexample :
    RetryOutcome.isFatal (runWithRetries retriableTaskPolicy
        (fun i => if i ≤ 6 then some ⟨"Lambda.ServiceException", "throttled"⟩ else none))
      = false
    ∧ runWithRetries retriableTaskPolicy
        (fun i => if i ≤ 6 then some ⟨"Lambda.ServiceException", "throttled"⟩ else none)
      = RetryOutcome.succeededOn 7 [2, 4, 8, 16, 32, 64] := by decide

/-- C3 (amended): a transiently-classified error on each of the first k
attempts (k ≤ 6) followed by success returns success on attempt k+1 with
backoff delay 2^i seconds before retry i; a 7th consecutive transient
failure exhausts the budget of 6 retries after the initial attempt
(7 attempts in all, delays 2,4,8,16,32,64) and the error becomes
fatal. -/
theorem C3_retry_backoff (k : Nat) (e : ErrInfo) (hk : k ≤ 6)
    (he : retriableErrors.contains e.name = true) :
    runWithRetries retriableTaskPolicy (fun i => if i ≤ k then some e else none)
      = RetryOutcome.succeededOn (k + 1) ((List.range k).map fun j => 2 ^ (j + 1))
    ∧ runWithRetries retriableTaskPolicy (fun _ => some e)
      = RetryOutcome.failedWith e 7 [2, 4, 8, 16, 32, 64] := by
  have hm : e.name ∈ retriableErrors := by simpa using he
  constructor
  · interval_cases k <;>
      simp [runWithRetries, runRetriesFrom, retriableTaskPolicy, hm, delayBeforeRetry,
        List.range_succ]
  · simp [runWithRetries, runRetriesFrom, retriableTaskPolicy, hm, delayBeforeRetry]

/-- C3 witness: 5 transient failures then success succeeds on attempt 6
with delays 2,4,8,16,32; all-transient runs become fatal on attempt 7. -/
theorem C3_retry_backoff_witness :
    runWithRetries retriableTaskPolicy
        (fun i => if i ≤ 5 then some ⟨"Lambda.ServiceException", "throttled"⟩ else none)
      = RetryOutcome.succeededOn 6 ((List.range 5).map fun j => 2 ^ (j + 1))
    ∧ runWithRetries retriableTaskPolicy (fun _ => some ⟨"Lambda.ServiceException", "throttled"⟩)
      = RetryOutcome.failedWith ⟨"Lambda.ServiceException", "throttled"⟩ 7 [2, 4, 8, 16, 32, 64] :=
  C3_retry_backoff 5 ⟨"Lambda.ServiceException", "throttled"⟩ (by decide) (by decide)

/-- C4: an error not classified as transient (authorization failures such
as role-assumption or permission denials are not among the retried
`Lambda.*` error names) is never retried — the task fails on attempt 1
with no backoff — and a terminal error in any of the copy, check or
register steps routes the workflow to the failure path, which produces
the failure notification. -/
theorem C4_authorization_not_retried (e : ErrInfo)
    (he : retriableErrors.contains e.name = false) :
    (∀ results : Nat → Option ErrInfo, results 1 = some e →
      runWithRetries retriableTaskPolicy results = RetryOutcome.failedWith e 1 [])
    ∧ (∀ (checks : List CheckResult) (reg : Option ErrInfo),
        runStateMachine ⟨some e, checks, reg⟩
          = ([Event.invokeCopy, Event.notifyFailure], Outcome.failureNotified))
    ∧ (∀ (reg : Option ErrInfo) (rest : List CheckResult),
        runStateMachine ⟨none, CheckResult.lambdaError e :: rest, reg⟩
          = ([Event.invokeCopy, Event.invokeCheck, Event.notifyFailure],
             Outcome.failureNotified))
    ∧ runStateMachine ⟨none, [CheckResult.status "completed"], some e⟩
        = ([Event.invokeCopy, Event.invokeCheck, Event.invokeRegister, Event.notifyFailure],
           Outcome.failureNotified) := by
  have hm : e.name ∉ retriableErrors := by simpa using he
  refine ⟨?_, ?_, ?_, ?_⟩
  · intro results h
    simp [runWithRetries, runRetriesFrom, retriableTaskPolicy, h, hm]
  · intro checks reg
    simp [runStateMachine]
  · intro reg rest
    simp [runStateMachine, runChecks]
  · simp [runStateMachine, runChecks, progressChoice, runRegister]

/-- C4 witness: a concrete `AccessDenied` error makes exactly one attempt
and the copy-step failure path notifies failure. -/
theorem C4_authorization_not_retried_witness :
    runWithRetries retriableTaskPolicy (fun _ => some ⟨"AccessDenied", "not authorized"⟩)
      = RetryOutcome.failedWith ⟨"AccessDenied", "not authorized"⟩ 1 []
    ∧ runStateMachine ⟨some ⟨"AccessDenied", "not authorized"⟩, [], none⟩
      = ([Event.invokeCopy, Event.notifyFailure], Outcome.failureNotified) :=
  ⟨(C4_authorization_not_retried ⟨"AccessDenied", "not authorized"⟩ (by decide)).1
      (fun _ => some ⟨"AccessDenied", "not authorized"⟩) rfl,
   (C4_authorization_not_retried ⟨"AccessDenied", "not authorized"⟩ (by decide)).2.1 [] none⟩

/-- Association-list lookup with pairwise-distinct keys finds a member
pair exactly. -/
theorem find?_key_of_mem {α β : Type} [BEq α] [LawfulBEq α]
    (l : List (α × β)) (k : α) (v : β)
    (hnd : (l.map Prod.fst).Nodup) (hmem : (k, v) ∈ l) :
    l.find? (fun p => p.1 == k) = some (k, v) := by
  induction l with
  | nil => simp at hmem
  | cons a rest ih =>
    simp only [List.map_cons, List.nodup_cons] at hnd
    rcases List.mem_cons.mp hmem with heq | hrest
    · subst heq
      simp [List.find?]
    · have hne : a.1 ≠ k := by
        intro hcontra
        exact hnd.1 (hcontra ▸ List.mem_map.mpr ⟨(k, v), hrest, rfl⟩)
      simp only [List.find?]
      have : (a.1 == k) = false := beq_eq_false_iff_ne.mpr hne
      rw [this]
      exact ih hnd.2 hrest

/-- Association-list lookup misses exactly the absent keys. -/
theorem find?_key_of_not_mem {α β : Type} [BEq α] [LawfulBEq α]
    (l : List (α × β)) (k : α) (hk : k ∉ l.map Prod.fst) :
    l.find? (fun p => p.1 == k) = none := by
  induction l with
  | nil => rfl
  | cons a rest ih =>
    simp only [List.map_cons, List.mem_cons, not_or] at hk
    simp only [List.find?]
    have : (a.1 == k) = false := beq_eq_false_iff_ne.mpr (Ne.symm hk.1)
    rw [this]
    exact ih hk.2

/-- A two-device image exhibiting the dropped non-root mapping. -/
def twoDeviceImage : ImageAttrs :=
  { name := "web-ami"
    architecture := "x86_64"
    billingProducts := []
    blockDeviceMappings :=
      [{ deviceName := "/dev/sda1", ebs := ⟨"snap-root", true, "gp2", 8⟩ },
       { deviceName := "/dev/sdb", ebs := ⟨"snap-data", false, "gp2", 100⟩ }]
    virtualizationType := "hvm"
    description := "web server"
    enaSupport := true
    sriovNetSupport := ""
    kernelId := ""
    ramdiskId := ""
    rootDeviceName := "/dev/sda1"
    tags := [("Name", "web")] }

/-- The device-mapping shape the claim asserts, stated from the spec's
words: every source mapping kept with identical devices and EBS
attributes, the snapshot identifier being the sole substitution. -/
def claimedRegisterMappings (src : List BlockDeviceMapping) (snap : String) :
    List BlockDeviceMapping :=
  src.map fun b => { b with ebs := { b.ebs with snapshotId := snap } }

end AmiFactory

namespace AmiFactory

/-- C8 counterexample: on a source image with two block-device mappings,
`registerImage` passes only the first mapping to `RegisterImage`
(src/lib/common.ts:685-693 reads `BlockDeviceMappings[0]` alone), so the
registered image does not have the same devices as the source: the
second device is dropped. -/
theorem C8_counterexample :
    (registerCallOf twoDeviceImage "snap-new").blockDeviceMappings
      ≠ claimedRegisterMappings twoDeviceImage.blockDeviceMappings "snap-new" := by
  decide

/-- C8 (amended): the registered destination image reuses the source
image's name, architecture, virtualization type, kernel and ramdisk
references, and the first (root) block-device mapping's device name and
EBS DeleteOnTermination, VolumeType and VolumeSize, with the snapshot
identifier replaced by the destination snapshot id; any further source
block-device mappings are not carried over; and the returned job has
`destinationImageId` populated with the new image's identifier. -/
theorem C8_register_fidelity (ev : Job) (newImageId : String)
    (d0 : BlockDeviceMapping) (rest : List BlockDeviceMapping)
    (hbd : ev.sourceImageAttrs.blockDeviceMappings = d0 :: rest) :
    ((registerImage newImageId ev).2.1.name = ev.sourceImageAttrs.name
      ∧ (registerImage newImageId ev).2.1.architecture = ev.sourceImageAttrs.architecture
      ∧ (registerImage newImageId ev).2.1.virtualizationType
        = ev.sourceImageAttrs.virtualizationType
      ∧ (registerImage newImageId ev).2.1.kernelId = ev.sourceImageAttrs.kernelId
      ∧ (registerImage newImageId ev).2.1.ramdiskId = ev.sourceImageAttrs.ramdiskId
      ∧ (registerImage newImageId ev).2.1.rootDeviceName
        = ev.sourceImageAttrs.rootDeviceName)
    ∧ (registerImage newImageId ev).2.1.blockDeviceMappings
        = [{ deviceName := d0.deviceName
             ebs := { snapshotId := ev.destinationSnapshotId
                      deleteOnTermination := d0.ebs.deleteOnTermination
                      volumeType := d0.ebs.volumeType
                      volumeSize := d0.ebs.volumeSize } }]
    ∧ (registerImage newImageId ev).1.destinationImageId = some newImageId := by
  refine ⟨⟨rfl, rfl, rfl, rfl, rfl, rfl⟩, ?_, rfl⟩
  simp [registerImage, registerCallOf, hbd]

/-- C8 witness: the amended fidelity at the two-device image. -/
theorem C8_register_fidelity_witness :
    ((registerImage "ami-new"
        { jobId := "j1", sourceImageId := "ami-src", destinationAccountId := "222233334444",
          destinationRegion := "us-east-1", destinationRoleName := "AMICopyRole",
          kmsKeyAlias := "alias/ami/web-ami", amiName := "web-ami",
          sourceImageAttrs := twoDeviceImage, destinationSnapshotId := "snap-new",
          destinationImageId := none }).2.1.blockDeviceMappings
      = [{ deviceName := "/dev/sda1"
           ebs := { snapshotId := "snap-new", deleteOnTermination := true,
                    volumeType := "gp2", volumeSize := 8 } }])
    ∧ (registerImage "ami-new"
        { jobId := "j1", sourceImageId := "ami-src", destinationAccountId := "222233334444",
          destinationRegion := "us-east-1", destinationRoleName := "AMICopyRole",
          kmsKeyAlias := "alias/ami/web-ami", amiName := "web-ami",
          sourceImageAttrs := twoDeviceImage, destinationSnapshotId := "snap-new",
          destinationImageId := none }).1.destinationImageId = some "ami-new" := by
  have h := C8_register_fidelity
    { jobId := "j1", sourceImageId := "ami-src", destinationAccountId := "222233334444",
      destinationRegion := "us-east-1", destinationRoleName := "AMICopyRole",
      kmsKeyAlias := "alias/ami/web-ami", amiName := "web-ami",
      sourceImageAttrs := twoDeviceImage, destinationSnapshotId := "snap-new",
      destinationImageId := none } "ami-new"
    { deviceName := "/dev/sda1", ebs := ⟨"snap-root", true, "gp2", 8⟩ }
    [{ deviceName := "/dev/sdb", ebs := ⟨"snap-data", false, "gp2", 100⟩ }] (by decide)
  exact ⟨h.2.1, h.2.2⟩

/-- C9: after registration, every tag key/value pair of the source image
is present, with identical key and value, on both the newly registered
image and the destination snapshot (source tag keys are pairwise
distinct, as EC2 tag keys are unique per resource). -/
theorem C9_tag_fidelity (tagsOf : String → List (String × String)) (ev : Job)
    (newImageId : String) (k v : String)
    (hnd : (ev.sourceImageAttrs.tags.map Prod.fst).Nodup)
    (hmem : (k, v) ∈ ev.sourceImageAttrs.tags) :
    applyCreateTags tagsOf (registerImage newImageId ev).2.2 newImageId k = some v
    ∧ applyCreateTags tagsOf (registerImage newImageId ev).2.2
        ev.destinationSnapshotId k = some v := by
  have hcall : (registerImage newImageId ev).2.2
      = { resources := [newImageId, ev.destinationSnapshotId]
          tags := ev.sourceImageAttrs.tags } := rfl
  have hfound : tagLookup ev.sourceImageAttrs.tags k = some v := by
    unfold tagLookup
    rw [find?_key_of_mem ev.sourceImageAttrs.tags k v hnd hmem]
    rfl
  rw [hcall]
  constructor <;> simp [applyCreateTags, hfound]

/-- C9 witness: the source tags land on both the registered image and
the destination snapshot of a concrete job. -/
theorem C9_tag_fidelity_witness :
    applyCreateTags (fun _ => [])
        (registerImage "ami-new"
          { jobId := "j1", sourceImageId := "ami-src",
            destinationAccountId := "222233334444", destinationRegion := "us-east-1",
            destinationRoleName := "AMICopyRole", kmsKeyAlias := "alias/ami/web-ami",
            amiName := "web-ami", sourceImageAttrs := twoDeviceImage,
            destinationSnapshotId := "snap-new", destinationImageId := none }).2.2
        "ami-new" "Name" = some "web"
    ∧ applyCreateTags (fun _ => [])
        (registerImage "ami-new"
          { jobId := "j1", sourceImageId := "ami-src",
            destinationAccountId := "222233334444", destinationRegion := "us-east-1",
            destinationRoleName := "AMICopyRole", kmsKeyAlias := "alias/ami/web-ami",
            amiName := "web-ami", sourceImageAttrs := twoDeviceImage,
            destinationSnapshotId := "snap-new", destinationImageId := none }).2.2
        "snap-new" "Name" = some "web" :=
  C9_tag_fidelity (fun _ => [])
    { jobId := "j1", sourceImageId := "ami-src",
      destinationAccountId := "222233334444", destinationRegion := "us-east-1",
      destinationRoleName := "AMICopyRole", kmsKeyAlias := "alias/ami/web-ami",
      amiName := "web-ami", sourceImageAttrs := twoDeviceImage,
      destinationSnapshotId := "snap-new", destinationImageId := none }
    "ami-new" "Name" "web" (by decide) (by decide)

/-- A sharing loop whose every grant succeeds emits exactly one share
call per block-device mapping, in order, with no error. -/
theorem shareLoop_all_ok (w : KickoffWorld) (accountId : String)
    (l : List BlockDeviceMapping)
    (h : ∀ b ∈ l, w.shareResult b.ebs.snapshotId = none) :
    shareLoop w accountId l
      = (l.map fun b => KAction.shareSnapshot b.ebs.snapshotId accountId, none) := by
  induction l with
  | nil => rfl
  | cons b rest ih =>
    have hb : w.shareResult b.ebs.snapshotId = none := h b (List.mem_cons_self b rest)
    have hrest := ih fun x hx => h x (List.mem_cons_of_mem b hx)
    simp [shareLoop, hb, hrest]

/-- Conversely, an error-free sharing loop result means every grant
succeeded and the emitted calls are exactly the per-device shares. -/
theorem shareLoop_none_inv (w : KickoffWorld) (accountId : String)
    (l : List BlockDeviceMapping) (as : List KAction)
    (h : shareLoop w accountId l = (as, none)) :
    as = (l.map fun b => KAction.shareSnapshot b.ebs.snapshotId accountId)
    ∧ ∀ b ∈ l, w.shareResult b.ebs.snapshotId = none := by
  induction l generalizing as with
  | nil =>
    simp [shareLoop] at h
    simp [h.symm]
  | cons b rest ih =>
    cases hb : w.shareResult b.ebs.snapshotId with
    | some e => simp [shareLoop, hb] at h
    | none =>
      simp only [shareLoop, hb] at h
      cases hr : shareLoop w accountId rest with
      | mk as2 r2 =>
        rw [hr] at h
        cases r2 with
        | some e => simp at h
        | none =>
          simp at h
          obtain ⟨ih1, ih2⟩ := ih as2 hr
          refine ⟨by rw [← h, ih1]; simp, ?_⟩
          intro x hx
          rcases List.mem_cons.mp hx with hxb | hxrest
          · rw [hxb]; exact hb
          · exact ih2 x hxrest

/-- The sharing loop never emits a start-execution or failure-report
call. -/
theorem shareLoop_only_shares (w : KickoffWorld) (accountId : String)
    (l : List BlockDeviceMapping) (x : KAction)
    (hx : x ∈ (shareLoop w accountId l).1) :
    ∃ snapshotId, x = KAction.shareSnapshot snapshotId accountId := by
  induction l with
  | nil => simp [shareLoop] at hx
  | cons b rest ih =>
    cases hb : w.shareResult b.ebs.snapshotId with
    | some e =>
      rw [shareLoop, hb] at hx
      simp at hx
      exact ⟨b.ebs.snapshotId, hx⟩
    | none =>
      rw [shareLoop, hb] at hx
      simp at hx
      rcases hx with hx1 | hx2
      · exact ⟨b.ebs.snapshotId, hx1⟩
      · exact ih hx2

end AmiFactory

namespace AmiFactory

/-- C7: in every kickoff execution, the create-volume-permission grant
is issued for the snapshot of every block-device mapping of the source
image, and all grants complete, before the state-machine execution is
started: a fully successful run emits exactly the per-device shares
followed by the single start call, and any run that starts an execution
did share every backing snapshot first, the start being the final
action. -/
theorem C7_sharing_precedes_dispatch :
    (∀ (w : KickoffWorld) (p : KickoffParams) (a : Str) (img : ImageAttrs) (arn : String),
      w.userParameters = .ok p → w.artifactFetch = .ok a → w.describeImage = .ok img →
      (∀ b ∈ img.blockDeviceMappings, w.shareResult b.ebs.snapshotId = none) →
      w.startResult = .ok arn →
      kickoff w
        = (img.blockDeviceMappings.map fun b =>
            KAction.shareSnapshot b.ebs.snapshotId p.destinationAccountId)
          ++ [KAction.startExecution ⟨w.jobId, resolveAmiId a w.region, p⟩])
    ∧ (∀ (w : KickoffWorld) (inp : SfnInput),
        KAction.startExecution inp ∈ kickoff w →
        ∃ (p : KickoffParams) (img : ImageAttrs),
          w.userParameters = .ok p ∧ w.describeImage = .ok img
          ∧ (∀ b ∈ img.blockDeviceMappings, w.shareResult b.ebs.snapshotId = none)
          ∧ kickoff w
              = (img.blockDeviceMappings.map fun b =>
                  KAction.shareSnapshot b.ebs.snapshotId p.destinationAccountId)
                ++ [KAction.startExecution inp]) := by
  constructor
  · intro w p a img arn hp ha himg hshare hstart
    have hsl := shareLoop_all_ok w p.destinationAccountId img.blockDeviceMappings hshare
    simp [kickoff, kickoffBody, hp, ha, himg, hsl, hstart]
  · intro w inp hmem
    cases hp : w.userParameters with
    | error e => simp [kickoff, kickoffBody, hp] at hmem
    | ok p =>
      cases ha : w.artifactFetch with
      | error e => simp [kickoff, kickoffBody, hp, ha] at hmem
      | ok a =>
        cases himg : w.describeImage with
        | error e => simp [kickoff, kickoffBody, hp, ha, himg] at hmem
        | ok img =>
          cases hsl : shareLoop w p.destinationAccountId img.blockDeviceMappings with
          | mk as r =>
            cases r with
            | some e =>
              simp [kickoff, kickoffBody, hp, ha, himg, hsl] at hmem
              obtain ⟨snap, hsnap⟩ := shareLoop_only_shares w
                p.destinationAccountId img.blockDeviceMappings
                (KAction.startExecution inp) (by rw [hsl]; exact hmem)
              simp at hsnap
            | none =>
              obtain ⟨has, hall⟩ := shareLoop_none_inv w p.destinationAccountId
                img.blockDeviceMappings as hsl
              cases hstart : w.startResult with
              | error e =>
                simp [kickoff, kickoffBody, hp, ha, himg, hsl, hstart] at hmem
                obtain ⟨snap, hsnap⟩ := shareLoop_only_shares w
                  p.destinationAccountId img.blockDeviceMappings
                  (KAction.startExecution inp) (by rw [hsl]; exact hmem)
                simp at hsnap
              | ok arn =>
                simp [kickoff, kickoffBody, hp, ha, himg, hsl, hstart] at hmem
                rcases hmem with hmem1 | hmem2
                · obtain ⟨snap, hsnap⟩ := shareLoop_only_shares w
                    p.destinationAccountId img.blockDeviceMappings
                    (KAction.startExecution inp) (by rw [hsl]; exact hmem1)
                  simp at hsnap
                · refine ⟨p, img, rfl, rfl, hall, ?_⟩
                  rw [hmem2]
                  simp [kickoff, kickoffBody, hp, ha, himg, hsl, hstart, has]

/-- C7 witness: a concrete fully successful kickoff shares both backing
snapshots and then starts the single execution. -/
theorem C7_sharing_precedes_dispatch_witness :
    kickoff
      { jobId := "job-1", region := "us-west-2".toList,
        userParameters := .ok
          { destinationAccountId := "222233334444", destinationRegion := "us-east-1",
            destinationRoleName := "AMICopyRole", kmsKeyAlias := "alias/ami/web-ami",
            amiName := "web-ami" },
        artifactFetch := .ok "us-west-2:ami-1,us-east-1:ami-2".toList,
        describeImage := .ok twoDeviceImage,
        shareResult := fun _ => none,
        startResult := .ok "arn:exec" }
      = [KAction.shareSnapshot "snap-root" "222233334444",
         KAction.shareSnapshot "snap-data" "222233334444",
         KAction.startExecution
           ⟨"job-1", resolveAmiId "us-west-2:ami-1,us-east-1:ami-2".toList "us-west-2".toList,
            { destinationAccountId := "222233334444", destinationRegion := "us-east-1",
              destinationRoleName := "AMICopyRole", kmsKeyAlias := "alias/ami/web-ami",
              amiName := "web-ami" }⟩] := by
  have h := C7_sharing_precedes_dispatch.1
    { jobId := "job-1", region := "us-west-2".toList,
      userParameters := .ok
        { destinationAccountId := "222233334444", destinationRegion := "us-east-1",
          destinationRoleName := "AMICopyRole", kmsKeyAlias := "alias/ami/web-ami",
          amiName := "web-ami" },
      artifactFetch := .ok "us-west-2:ami-1,us-east-1:ami-2".toList,
      describeImage := .ok twoDeviceImage,
      shareResult := fun _ => none,
      startResult := .ok "arn:exec" }
    { destinationAccountId := "222233334444", destinationRegion := "us-east-1",
      destinationRoleName := "AMICopyRole", kmsKeyAlias := "alias/ami/web-ami",
      amiName := "web-ami" }
    "us-west-2:ami-1,us-east-1:ami-2".toList twoDeviceImage "arn:exec"
    rfl rfl rfl (fun _ _ => rfl) rfl
  simpa [twoDeviceImage] using h

/-- C10: the kickoff handler catches every error raised by parameter
parsing, artifact retrieval and manifest extraction, image description,
snapshot sharing, or the state-machine start, and reports a job failure
to the pipeline for the triggering job id carrying the error's name and
message, instead of rethrowing; in general whatever the body's first
error is, the handler appends exactly one failure report for it. -/
theorem C10_kickoff_catches_all (w : KickoffWorld) (e : ErrInfo) :
    (w.userParameters = .error e →
      kickoff w = [KAction.putJobFailureResult w.jobId (kickoffErrMsg e)])
    ∧ (∀ p, w.userParameters = .ok p → w.artifactFetch = .error e →
      kickoff w = [KAction.putJobFailureResult w.jobId (kickoffErrMsg e)])
    ∧ (∀ p a, w.userParameters = .ok p → w.artifactFetch = .ok a →
        w.describeImage = .error e →
      kickoff w = [KAction.putJobFailureResult w.jobId (kickoffErrMsg e)])
    ∧ (∀ p a img as, w.userParameters = .ok p → w.artifactFetch = .ok a →
        w.describeImage = .ok img →
        shareLoop w p.destinationAccountId img.blockDeviceMappings = (as, some e) →
      kickoff w = as ++ [KAction.putJobFailureResult w.jobId (kickoffErrMsg e)])
    ∧ (∀ p a img as, w.userParameters = .ok p → w.artifactFetch = .ok a →
        w.describeImage = .ok img →
        shareLoop w p.destinationAccountId img.blockDeviceMappings = (as, none) →
        w.startResult = .error e →
      kickoff w = as ++ [KAction.putJobFailureResult w.jobId (kickoffErrMsg e)])
    ∧ (∀ err, (kickoffBody w).2 = some err →
      kickoff w = (kickoffBody w).1
        ++ [KAction.putJobFailureResult w.jobId (kickoffErrMsg err)]) := by
  refine ⟨?_, ?_, ?_, ?_, ?_, ?_⟩
  · intro hp
    simp [kickoff, kickoffBody, hp]
  · intro p hp ha
    simp [kickoff, kickoffBody, hp, ha]
  · intro p a hp ha himg
    simp [kickoff, kickoffBody, hp, ha, himg]
  · intro p a img as hp ha himg hsl
    simp [kickoff, kickoffBody, hp, ha, himg, hsl]
  · intro p a img as hp ha himg hsl hstart
    simp [kickoff, kickoffBody, hp, ha, himg, hsl, hstart]
  · intro err herr
    unfold kickoff
    cases hb : kickoffBody w with
    | mk as r =>
      rw [hb] at herr
      simp at herr
      rw [herr]

/-- C10 witness: a kickoff whose parameter parsing raises reports the
failure with the error's name and message and performs nothing else. -/
theorem C10_kickoff_catches_all_witness :
    kickoff
      { jobId := "job-1", region := "us-west-2".toList,
        userParameters := .error ⟨"SyntaxError", "Unexpected token"⟩,
        artifactFetch := .error ⟨"SyntaxError", "Unexpected token"⟩,
        describeImage := .error ⟨"SyntaxError", "Unexpected token"⟩,
        shareResult := fun _ => none,
        startResult := .error ⟨"SyntaxError", "Unexpected token"⟩ }
      = [KAction.putJobFailureResult "job-1" "ERROR: SyntaxError: Unexpected token"] :=
  (C10_kickoff_catches_all
    { jobId := "job-1", region := "us-west-2".toList,
      userParameters := .error ⟨"SyntaxError", "Unexpected token"⟩,
      artifactFetch := .error ⟨"SyntaxError", "Unexpected token"⟩,
      describeImage := .error ⟨"SyntaxError", "Unexpected token"⟩,
      shareResult := fun _ => none,
      startResult := .error ⟨"SyntaxError", "Unexpected token"⟩ }
    ⟨"SyntaxError", "Unexpected token"⟩).1 rfl

/-- A separator-free string splits to itself. -/
theorem splitOnChar_no_sep (c : Char) (a : Str) (h : c ∉ a) :
    splitOnChar c a = [a] := by
  induction a with
  | nil => rfl
  | cons x xs ih =>
    have hx : x ≠ c := by
      intro hc
      exact h (hc ▸ List.mem_cons_self x xs)
    have hxs : c ∉ xs := fun hm => h (List.mem_cons_of_mem x hm)
    simp only [splitOnChar]
    rw [if_neg hx, ih hxs]

/-- Splitting at the first separator occurrence peels off the
separator-free prefix. -/
theorem splitOnChar_sep_append (c : Char) (a rest : Str) (h : c ∉ a) :
    splitOnChar c (a ++ c :: rest) = a :: splitOnChar c rest := by
  induction a with
  | nil => simp [splitOnChar]
  | cons x xs ih =>
    have hx : x ≠ c := by
      intro hc
      exact h (hc ▸ List.mem_cons_self x xs)
    have hxs : c ∉ xs := fun hm => h (List.mem_cons_of_mem x hm)
    simp only [List.cons_append, splitOnChar, List.append_eq]
    rw [if_neg hx, ih hxs]

/-- A comma never occurs inside an encoded `region:id` fragment whose
components are comma-free. -/
theorem comma_not_mem_pair (r i : Str) (hr : ',' ∉ r) (hi : ',' ∉ i) :
    ',' ∉ r ++ ':' :: i := by
  intro hmem
  rcases List.mem_append.mp hmem with h1 | h2
  · exact hr h1
  · rcases List.mem_cons.mp h2 with h3 | h4
    · exact absurd h3 (by decide)
    · exact hi h4

/-- Splitting the comma-joined pair list recovers the encoded
fragments. -/
theorem splitOnChar_joinPairs (ps : List (Str × Str))
    (hwf : ∀ p ∈ ps, ',' ∉ p.1 ∧ ',' ∉ p.2 ∧ ':' ∉ p.1 ∧ ':' ∉ p.2)
    (hne : ps ≠ []) :
    splitOnChar ',' (joinPairs ps) = ps.map fun p => p.1 ++ ':' :: p.2 := by
  induction ps with
  | nil => exact absurd rfl hne
  | cons p rest ih =>
    have hp := hwf p (by simp)
    have hnotin : ',' ∉ p.1 ++ ':' :: p.2 := comma_not_mem_pair p.1 p.2 hp.1 hp.2.1
    cases rest with
    | nil =>
      rw [joinPairs, splitOnChar_no_sep ',' _ hnotin]
      simp
    | cons q rest2 =>
      have hassoc : joinPairs (p :: q :: rest2)
          = (p.1 ++ ':' :: p.2) ++ ',' :: joinPairs (q :: rest2) := by
        simp [joinPairs]
      rw [hassoc, splitOnChar_sep_append ',' _ _ hnotin,
        ih (fun x hx => hwf x (List.mem_cons_of_mem p hx)) (by simp)]
      simp

/-- Splitting an encoded `region:id` fragment on the colon recovers the
pair. -/
theorem splitOnChar_pair (r i : Str) (hr : ':' ∉ r) (hi : ':' ∉ i) :
    splitOnChar ':' (r ++ ':' :: i) = [r, i] := by
  rw [splitOnChar_sep_append ':' r i hr, splitOnChar_no_sep ':' i hi]

/-- Assigning a fresh key into the JS object appends the binding. -/
theorem jsSet_fresh (m : List (Str × Option Str)) (k : Str) (v : Option Str)
    (h : ∀ p ∈ m, p.1 ≠ k) : jsSet m k v = m ++ [(k, v)] := by
  have hany : m.any (fun p => p.1 == k) = false := by
    rw [List.any_eq_false]
    intro p hp
    simpa using h p hp
  simp [jsSet, hany]

/-- Folding the manifest assignments over well-formed, distinct-key
pairs produces exactly the association list of the pairs. -/
theorem getAmiIDs_fold (ps : List (Str × Str)) : ∀ acc : List (Str × Option Str),
    (∀ p ∈ ps, ':' ∉ p.1 ∧ ':' ∉ p.2) →
    (∀ q ∈ acc, ∀ p ∈ ps, q.1 ≠ p.1) →
    (ps.map Prod.fst).Nodup →
    (ps.map fun p => p.1 ++ ':' :: p.2).foldl
      (fun images pair =>
        jsSet images ((splitOnChar ':' pair).headD []) ((splitOnChar ':' pair).get? 1))
      acc
    = acc ++ ps.map fun p => (p.1, some p.2) := by
  induction ps with
  | nil => intro acc hwf hfresh hnd; simp
  | cons p rest ih =>
    intro acc hwf hfresh hnd
    have hp := hwf p (by simp)
    have hsplit : splitOnChar ':' (p.1 ++ ':' :: p.2) = [p.1, p.2] :=
      splitOnChar_pair p.1 p.2 hp.1 hp.2
    simp only [List.map_cons, List.foldl_cons, hsplit, List.headD_cons]
    have hval : ([p.1, p.2] : List Str).get? 1 = some p.2 := rfl
    rw [hval]
    rw [jsSet_fresh acc p.1 (some p.2) (fun q hq => hfresh q hq p (by simp))]
    simp only [List.map_cons, List.nodup_cons] at hnd
    have hfresh2 : ∀ q ∈ acc ++ [(p.1, some p.2)], ∀ x ∈ rest, q.1 ≠ x.1 := by
      intro q hq x hx
      rcases List.mem_append.mp hq with hq1 | hq2
      · exact hfresh q hq1 x (List.mem_cons_of_mem p hx)
      · have : q = (p.1, some p.2) := by simpa using hq2
        rw [this]
        intro hcontra
        exact hnd.1 (hcontra ▸ List.mem_map.mpr ⟨x, hx, rfl⟩)
    rw [ih (acc ++ [(p.1, some p.2)]) (fun x hx => hwf x (List.mem_cons_of_mem p hx))
      hfresh2 hnd.2]
    simp

end AmiFactory

namespace AmiFactory

/-- C6: for a manifest whose first build's `artifact_id` is the
delimited list `region1:id1,region2:id2,...` (components free of the
colon and comma delimiters, regions pairwise distinct), resolving the
operating region returns exactly the image identifier paired with that
region, and resolving a region with no entry yields no identifier
(JS `undefined` — the condition the spec names `RegionNotFoundError`). -/
theorem C6_manifest_resolution (ps : List (Str × Str)) (r i : Str)
    (hwf : ∀ p ∈ ps, ',' ∉ p.1 ∧ ',' ∉ p.2 ∧ ':' ∉ p.1 ∧ ':' ∉ p.2)
    (hnd : (ps.map Prod.fst).Nodup) :
    ((r, i) ∈ ps → resolveAmiId (joinPairs ps) r = some i)
    ∧ (ps ≠ [] → r ∉ ps.map Prod.fst → resolveAmiId (joinPairs ps) r = none) := by
  have hmap : ps ≠ [] →
      getAmiIDsByRegion (joinPairs ps) = ps.map fun p => (p.1, some p.2) := by
    intro hne
    unfold getAmiIDsByRegion
    rw [splitOnChar_joinPairs ps hwf hne]
    exact getAmiIDs_fold ps []
      (fun p hp => ⟨(hwf p hp).2.2.1, (hwf p hp).2.2.2⟩) (by simp) hnd
  constructor
  · intro hmem
    have hne : ps ≠ [] := by
      intro h
      rw [h] at hmem
      simp at hmem
    unfold resolveAmiId jsGet
    rw [hmap hne]
    have hfd : (ps.map fun p => ((p.1 : Str), some p.2)).find? (fun p => p.1 == r)
        = some (r, some i) := by
      apply find?_key_of_mem
      · simpa [List.map_map, Function.comp] using hnd
      · exact List.mem_map.mpr ⟨(r, i), hmem, rfl⟩
    rw [hfd]
    rfl
  · intro hne hnot
    unfold resolveAmiId jsGet
    rw [hmap hne]
    rw [find?_key_of_not_mem]
    · rfl
    · simpa [List.map_map, Function.comp] using hnot

/-- C6 witness: the two-region example resolves `us-west-2` to `ami-1`,
and an unlisted region resolves to nothing. -/
theorem C6_manifest_resolution_witness :
    resolveAmiId (joinPairs
        [("us-west-2".toList, "ami-1".toList), ("us-east-1".toList, "ami-2".toList)])
      "us-west-2".toList = some "ami-1".toList
    ∧ resolveAmiId (joinPairs
        [("us-west-2".toList, "ami-1".toList), ("us-east-1".toList, "ami-2".toList)])
      "eu-central-1".toList = none :=
  ⟨(C6_manifest_resolution
      [("us-west-2".toList, "ami-1".toList), ("us-east-1".toList, "ami-2".toList)]
      "us-west-2".toList "ami-1".toList (by decide) (by decide)).1 (by decide),
   (C6_manifest_resolution
      [("us-west-2".toList, "ami-1".toList), ("us-east-1".toList, "ami-2".toList)]
      "eu-central-1".toList [] (by decide) (by decide)).2 (by decide) (by decide)⟩

end AmiFactory
